import Mathlib

/-!
Shallow embedding of `pg_human` (src/lib.rs), a PostgreSQL extension that
turns a natural-language question into SQL via a chat-completion API and
optionally executes the generated SQL.

External collaborators (the SPI database client, the network transport of the
completion request, and the GUC store holding `pg_human.api_key`) are passed
in as explicit parameters; everything else is translated directly from the
Rust source.  Rust panics (`expect`, out-of-bounds `Vec::remove`) are modelled
by a distinguished `Outcome.panic` constructor, separate from ordinary
`Result` errors (`Outcome.err`).
-/

namespace PgHuman

/-- Column description: column name plus textual type name (lib.rs 97-101). -/
structure ColumnDescription where
  name : String
  type_name : String
deriving Repr, DecidableEq

/-- Table description: schema, table name, ordered columns, ordered
constraint-definition strings (lib.rs 53-59). -/
structure TableDescription where
  schema : String
  name : String
  columns : List ColumnDescription
  constraints : List String
deriving Repr, DecidableEq

/-- Database description: ordered sequence of tables (lib.rs 32-35). -/
structure DatabaseDescription where
  tables : List TableDescription
deriving Repr, DecidableEq

/-! ### Display rendering

The Rust `fmt::Display` implementations take an `alternate` flag (`{:#}`):
`alt = true` is the expanded multi-line form, `alt = false` the compact
one-line form.  `quote_qualified_identifier` is a pgx library function
(external); it is passed in as the parameter `qq`. -/

/-- Display for ColumnDescription (lib.rs 103-107): `name type`. -/
def fmtColumn (c : ColumnDescription) : String :=
  c.name ++ " " ++ c.type_name

/-- Column list rendering inside Display for TableDescription (lib.rs 68-80):
a comma before every column but the first; expanded form puts each column on
its own indented line, compact form separates by a space. -/
def fmtColumns (alt : Bool) (cols : List ColumnDescription) : String :=
  String.join (cols.enum.map (fun ic =>
    (if 0 < ic.1 then "," else "") ++
    (if alt then "\n    " ++ fmtColumn ic.2
     else (if 0 < ic.1 then " " else "") ++ fmtColumn ic.2)))

/-- Constraint list rendering inside Display for TableDescription
(lib.rs 81-88): every constraint is preceded by a comma. -/
def fmtConstraints (alt : Bool) (cs : List String) : String :=
  String.join (cs.map (fun c =>
    "," ++ (if alt then "\n    " ++ c else " " ++ c)))

/-- Display for TableDescription (lib.rs 61-95). -/
def fmtTable (qq : String → String → String) (alt : Bool)
    (t : TableDescription) : String :=
  "CREATE TABLE " ++ qq t.schema t.name ++ "(" ++
    fmtColumns alt t.columns ++ fmtConstraints alt t.constraints ++
    (if alt then "\n" else "") ++ ");"

/-- Display for DatabaseDescription (lib.rs 37-51): in the expanded form
tables are separated by a blank line; in the compact form they are written
back to back with no separator. -/
def fmtDatabase (qq : String → String → String) (alt : Bool)
    (d : DatabaseDescription) : String :=
  String.join (d.tables.enum.map (fun it =>
    (if alt && 0 < it.1 then "\n\n" else "") ++ fmtTable qq alt it.2))

/-! ### Read-mode trimming (lib.rs 231) -/

/-- Character set of the `trim_end_matches` pattern `[';', '\n', ' ']`. -/
def isTrimChar (c : Char) : Bool :=
  c = ';' || c = '\n' || c = ' '

/-- Rust `sql.trim_end_matches([';', '\n', ' '])` (lib.rs 231): repeatedly
removes trailing characters drawn from the pattern set. -/
def trim_end_matches (s : String) : String :=
  ⟨(s.data.reverse.dropWhile isTrimChar).reverse⟩

example : trim_end_matches "SELECT 1; -- x;\n  " = "SELECT 1; -- x" := by decide

/-! ### Chat messages and the prompt builder (lib.rs 183-202) -/

/-- Role tag of a chat turn (openai crate `ChatCompletionMessageRole`). -/
inductive ChatCompletionMessageRole where
  | system
  | user
  | assistant
deriving Repr, DecidableEq

/-- One chat turn (openai crate `ChatCompletionMessage`). -/
structure ChatCompletionMessage where
  role : ChatCompletionMessageRole
  content : String
  name : Option String
deriving Repr, DecidableEq

/-- Prompt builder `question_prompt` (lib.rs 183-202).  In the source the
database description is introspected inside the function via
`DatabaseDescription::new()`; the introspected description `db` (and the pgx
identifier-quoting function `qq`) are passed as parameters here. -/
def question_prompt (qq : String → String → String) (db : DatabaseDescription)
    (question : String) : List ChatCompletionMessage :=
  [⟨.system, "You are a PostgreSQL expert", none⟩,
   ⟨.user, "My Postgres database schema looks like this:\n" ++
      fmtDatabase qq true db ++ ".", none⟩,
   ⟨.user, "Given that schema, could you give me a PostgreSQL query to do the following action: "
      ++ question ++
      ".\n Only respond with the SQL code, so no other additional text. Only use the tables and columns provided in the schema.",
    none⟩]

/-! ### Completion client (lib.rs 204-214) -/

/-- One choice of a chat-completion response (openai crate). -/
structure ChatChoice where
  message : ChatCompletionMessage
deriving Repr, DecidableEq

/-- A chat-completion response: its list of choices (openai crate). -/
structure ChatCompletion where
  choices : List ChatChoice
deriving Repr, DecidableEq

/-- Failure of the completion request itself: the outer transport error or
the inner API error (the second and third `?` on lib.rs 212). -/
inductive RequestError where
  | transport (msg : String)
  | apiError (msg : String)
deriving Repr, DecidableEq

/-- Abstract behaviour of the network transport for one completion request:
either it resolves after `t` seconds with a result, or it never resolves. -/
inductive TransportOutcome where
  | resolves (t : Nat) (r : Except RequestError ChatCompletion)
  | neverResolves
deriving Repr

/-- Error taxonomy of the pipeline as surfaced through `anyhow::Result`. -/
inductive PgError where
  | completionTimeout
  | requestFailed (e : RequestError)
  | dbError (msg : String)
deriving Repr, DecidableEq

/-- Result of a Rust computation: an `Ok` value, an `Err` propagated through
`?`, or a panic (`expect`, out-of-bounds `Vec::remove`), which aborts rather
than returning a `Result`. -/
inductive Outcome (α : Type) where
  | ok (a : α)
  | err (e : PgError)
  | panic (msg : String)
deriving Repr, DecidableEq

/-- Wait ceiling of the completion call: `Duration::from_secs(20)`
(lib.rs 211). -/
def timeoutCeilingSecs : Nat := 20

/-- Result of `complete_prompt` together with the requests actually issued to
the network (each recorded as the list of turns it carried). -/
structure CompletionTrace where
  requests : List (List ChatCompletionMessage)
  result : Outcome String
deriving Repr

/-- Completion client `complete_prompt` (lib.rs 204-214).  `apiKey` is the
value of the `pg_human.api_key` GUC; `transport` is the external network
behaviour for a request carrying the given turns.  When the key is unset,
`API_KEY.get().expect(..)` panics before any request is constructed.  The
single request is awaited under `timeout(Duration::from_secs(20), ..)`; an
elapsed timeout, a transport error and an API error are each propagated by
one of the three `?`.  On success `response.choices.remove(0)` panics when
the choice list is empty, else yields the first choice, whose message content
is returned verbatim. -/
def complete_prompt (apiKey : Option String)
    (transport : List ChatCompletionMessage → TransportOutcome)
    (prompt : List ChatCompletionMessage) : CompletionTrace :=
  match apiKey with
  | none => ⟨[], .panic "pg_human.api_key is not set"⟩
  | some _ =>
    ⟨[prompt],
      match transport prompt with
      | .neverResolves => .err .completionTimeout
      | .resolves t r =>
        if timeoutCeilingSecs ≤ t then .err .completionTimeout
        else
          match r with
          | .error e => .err (.requestFailed e)
          | .ok response =>
            match response.choices with
            | [] => .panic "removal index (is 0) should be < len (is 0)"
            | c :: _ => .ok c.message.content⟩

/-! ### The three entry points (lib.rs 216-269) -/

/-- Observable behaviour of one entry-point invocation: the `notice!`
messages emitted, the SQL strings handed to the SPI execution primitive,
and the returned value. -/
structure PipelineTrace (α : Type) where
  notices : List String
  queriesRun : List String
  result : Outcome α
deriving Repr

/-- Entry point `give_me_a_query_to` (lib.rs 216-222): builds the prompt,
completes it, and on success emits the generated SQL inside a `notice!`
message, returning `Ok(())`.  No SQL is executed. -/
def give_me_a_query_to (apiKey : Option String)
    (transport : List ChatCompletionMessage → TransportOutcome)
    (qq : String → String → String) (db : DatabaseDescription)
    (question : String) : PipelineTrace Unit :=
  match (complete_prompt apiKey transport (question_prompt qq db question)).result with
  | .err e => ⟨[], [], .err e⟩
  | .panic m => ⟨[], [], .panic m⟩
  | .ok sql => ⟨["You can try this query:\n" ++ sql], [], .ok ()⟩

/-- Read-mode query wrapper (lib.rs 237-239): the trimmed SQL becomes a
derived table whose rows are converted to `jsonb` by the projection. -/
def wrapReadQuery (cleaned_sql : String) : String :=
  "SELECT to_jsonb(generated_query) as data FROM (" ++ cleaned_sql ++
    ") generated_query"

/-- Wrapping two-complement addition on 32-bit signed integers (the
constants are 2 to the 31st and 2 to the 32nd power): the row counter `i` in
`im_feeling_lucky` is an `i32` incremented with `i += 1`, which wraps in
release builds. -/
def wrapAdd32 (a b : Int) : Int :=
  (a + b + 2147483648) % 4294967296 - 2147483648

/-- Row-indexing loop of `im_feeling_lucky` (lib.rs 244-249): pairs each
result row with the running `i32` counter, starting at `i`. -/
def indexRowsFrom {α : Type} (i : Int) : List α → List (Int × α)
  | [] => []
  | r :: rs => (i, r) :: indexRowsFrom (wrapAdd32 i 1) rs

/-- Row-indexing loop starting from `let mut i = 0` (lib.rs 244). -/
def indexRows {α : Type} (rows : List α) : List (Int × α) :=
  indexRowsFrom 0 rows

/-- Execution phase of `im_feeling_lucky` (lib.rs 231-252), given the SQL
text received from the completion: trims it, emits the notice, runs the
wrapped query through the SPI `select` primitive (external, passed in), and
either propagates the SPI error or indexes the returned `jsonb` rows.  `α`
is the opaque `jsonb` row value. -/
def im_feeling_lucky_exec {α : Type} (select : String → Except String (List α))
    (sql : String) : PipelineTrace (List (Int × α)) :=
  match select (wrapReadQuery (trim_end_matches sql)) with
  | .error e =>
    ⟨["Executing query:\n" ++ sql], [wrapReadQuery (trim_end_matches sql)],
      .err (.dbError e)⟩
  | .ok rows =>
    ⟨["Executing query:\n" ++ sql], [wrapReadQuery (trim_end_matches sql)],
      .ok (indexRows rows)⟩

/-- Entry point `im_feeling_lucky` (lib.rs 224-253): completion followed by
read-mode execution. -/
def im_feeling_lucky {α : Type} (apiKey : Option String)
    (transport : List ChatCompletionMessage → TransportOutcome)
    (qq : String → String → String) (db : DatabaseDescription)
    (select : String → Except String (List α))
    (question : String) : PipelineTrace (List (Int × α)) :=
  match (complete_prompt apiKey transport (question_prompt qq db question)).result with
  | .err e => ⟨[], [], .err e⟩
  | .panic m => ⟨[], [], .panic m⟩
  | .ok sql => im_feeling_lucky_exec select sql

/-- Execution phase of `im_feeling_lucky_dml` (lib.rs 260-268), given the SQL
text received from the completion: emits the notice and hands the text to the
SPI `update` primitive (external, passed in) unchanged; returns unit success
or the propagated SPI error. -/
def im_feeling_lucky_dml_exec (update : String → Except String Unit)
    (sql : String) : PipelineTrace Unit :=
  match update sql with
  | .error e => ⟨["Executing:\n" ++ sql], [sql], .err (.dbError e)⟩
  | .ok _ => ⟨["Executing:\n" ++ sql], [sql], .ok ()⟩

/-- Entry point `im_feeling_lucky_dml` (lib.rs 255-269): completion followed
by write-mode execution. -/
def im_feeling_lucky_dml (apiKey : Option String)
    (transport : List ChatCompletionMessage → TransportOutcome)
    (qq : String → String → String) (db : DatabaseDescription)
    (update : String → Except String Unit)
    (question : String) : PipelineTrace Unit :=
  match (complete_prompt apiKey transport (question_prompt qq db question)).result with
  | .err e => ⟨[], [], .err e⟩
  | .panic m => ⟨[], [], .panic m⟩
  | .ok sql => im_feeling_lucky_dml_exec update sql

/-! ### Schema introspection (lib.rs 109-179)

The introspection query returns one row per column, `ORDER BY table_schema,
table_name, ordinal_position`; the rows are the external input here.  The
grouping pass is itertools `group_by`, which groups *consecutive* elements
whose key equals the key of the group opener. -/

/-- One row of the `information_schema.columns` introspection query
(lib.rs 112-121): schema, table, column, type, already sorted by
(schema, table, ordinal position) by the query. -/
structure IntrospectionRow where
  table_schema : String
  table_name : String
  column_name : String
  data_type : String
deriving Repr, DecidableEq

/-- Grouping key of the `group_by` closure (lib.rs 126-131):
the (schema, table) pair. -/
def rowKey (r : IntrospectionRow) : String × String :=
  (r.table_schema, r.table_name)

/-- Contiguous runs of rows sharing the key of the run opener — the
semantics of itertools `group_by` (lib.rs 126). -/
def groupRuns : List IntrospectionRow → List (List IntrospectionRow)
  | [] => []
  | r :: rs =>
    (r :: rs.takeWhile (fun x => decide (rowKey x = rowKey r))) ::
      groupRuns (rs.dropWhile (fun x => decide (rowKey x = rowKey r)))
termination_by l => l.length
decreasing_by
  simp only [List.length_cons]
  exact Nat.lt_succ_of_le (List.Sublist.length_le (List.dropWhile_sublist _))

/-- Builds one TableDescription from one run (lib.rs 133-143), with the
constraints attached afterwards by the per-table constraint query
(lib.rs 156-175), modelled by the external `constraintsFor`.  A run produced
by `groupRuns` is never empty, so the `[]` branch is unreachable. -/
def tableOfRun (constraintsFor : String → String → List String) :
    List IntrospectionRow → TableDescription
  | [] => ⟨"", "", [], []⟩
  | r :: rs =>
    ⟨r.table_schema, r.table_name,
      (r :: rs).map (fun x => ⟨x.column_name, x.data_type⟩),
      constraintsFor r.table_schema r.table_name⟩

/-- `DatabaseDescription::new` (lib.rs 109-179): the single linear grouping
pass over the sorted introspection rows, then the per-table constraint
attachment. -/
def DatabaseDescription.new (rows : List IntrospectionRow)
    (constraintsFor : String → String → List String) : DatabaseDescription :=
  ⟨(groupRuns rows).map (tableOfRun constraintsFor)⟩

/-- Lexicographic order on (schema, table) keys: the order produced by
`ORDER BY table_schema, table_name`. -/
def keyLe (a b : String × String) : Prop :=
  a.1 < b.1 ∨ (a.1 = b.1 ∧ a.2 ≤ b.2)

instance (a b : String × String) : Decidable (keyLe a b) := by
  unfold keyLe; exact inferInstance

/-- Sortedness precondition of the grouping pass: rows arrive ordered by
(schema, table) — the ordinal position only orders rows inside one key. -/
def rowsSorted (rows : List IntrospectionRow) : Prop :=
  List.Sorted (fun a b => keyLe (rowKey a) (rowKey b)) rows

/-- Predicate on the transport behaviour: the request does not resolve
within the wait ceiling (or never resolves at all). -/
def TransportOutcome.timedOut : TransportOutcome → Bool
  | .neverResolves => true
  | .resolves t _ => decide (timeoutCeilingSecs ≤ t)

/-! ### Concrete fixtures used to instantiate theorems at closed inputs -/

/-- Transport fixture: every request resolves immediately with a single
choice whose message content is `sql`. -/
def okTransport (sql : String) : List ChatCompletionMessage → TransportOutcome :=
  fun _ => .resolves 0 (.ok ⟨[⟨⟨.assistant, sql, none⟩⟩]⟩)

/-- Identifier-quoting fixture standing in for pgx
`quote_qualified_identifier` on identifiers that need no quoting. -/
def qqPlain (s t : String) : String :=
  s ++ "." ++ t

/-- Introspection rows used to instantiate the grouping theorem: one table
with two columns, so the sortedness hypothesis only needs reflexivity of the
key order. -/
def sortedRowsW : List IntrospectionRow :=
  [⟨"public", "ads", "id", "bigint"⟩, ⟨"public", "ads", "name", "text"⟩]

/-! ## Theorems -/

/-- A list is its tail-trimmed part followed by its trimmed-off tail. -/
theorem rdropWhile_append_rtakeWhile {α : Type} (p : α → Bool) (l : List α) :
    l.rdropWhile p ++ l.rtakeWhile p = l := by
  rw [List.rdropWhile, List.rtakeWhile, ← List.reverse_append,
    List.takeWhile_append_dropWhile, List.reverse_reverse]

/-- Bridge between the source-shaped `trim_end_matches` and Mathlib's
`List.rdropWhile`. -/
theorem trim_end_matches_eq_rdropWhile (s : String) :
    (trim_end_matches s).data = s.data.rdropWhile isTrimChar :=
  rfl

/-- C2: the read-mode trimming step removes exactly the maximal trailing run
of characters from the set of semicolon, newline and space, and preserves
everything before that run; in particular the spec's example input trims to
the spec's example output. -/
theorem C2_read_trimming (s : String) :
    (s.data = (trim_end_matches s).data ++ s.data.rtakeWhile isTrimChar
      ∧ ∀ c ∈ s.data.rtakeWhile isTrimChar, isTrimChar c)
    ∧ (∀ h : (trim_end_matches s).data ≠ [],
        ¬ isTrimChar ((trim_end_matches s).data.getLast h))
    ∧ trim_end_matches "SELECT 1; -- x;\n  " = "SELECT 1; -- x" := by
  refine ⟨⟨?_, fun c hc => List.mem_rtakeWhile_imp hc⟩, ?_, by decide⟩
  · rw [trim_end_matches_eq_rdropWhile, rdropWhile_append_rtakeWhile]
  · intro h
    exact List.rdropWhile_last_not isTrimChar s.data h

/-- Witness for C2 at a concrete input: the trimmed result of `"ab; "` does
not end in a trimmable character. -/
theorem C2_read_trimming_witness :
    ¬ isTrimChar ((trim_end_matches "ab; ").data.getLast (by decide)) :=
  (C2_read_trimming "ab; ").2.1 (by decide)

/-- Dispatch of `im_feeling_lucky_dml` on a successful completion. -/
theorem im_feeling_lucky_dml_of_ok (apiKey : Option String)
    (transport : List ChatCompletionMessage → TransportOutcome)
    (qq : String → String → String) (db : DatabaseDescription)
    (update : String → Except String Unit) (question sql : String)
    (hsql : (complete_prompt apiKey transport (question_prompt qq db question)).result
      = .ok sql) :
    im_feeling_lucky_dml apiKey transport qq db update question
      = im_feeling_lucky_dml_exec update sql := by
  unfold im_feeling_lucky_dml
  rw [hsql]

/-- Dispatch of `im_feeling_lucky` on a successful completion. -/
theorem im_feeling_lucky_of_ok {α : Type} (apiKey : Option String)
    (transport : List ChatCompletionMessage → TransportOutcome)
    (qq : String → String → String) (db : DatabaseDescription)
    (select : String → Except String (List α)) (question sql : String)
    (hsql : (complete_prompt apiKey transport (question_prompt qq db question)).result
      = .ok sql) :
    im_feeling_lucky apiKey transport qq db select question
      = im_feeling_lucky_exec select sql := by
  unfold im_feeling_lucky
  rw [hsql]

/-- Dispatch of `give_me_a_query_to` on a successful completion. -/
theorem give_me_a_query_to_of_ok (apiKey : Option String)
    (transport : List ChatCompletionMessage → TransportOutcome)
    (qq : String → String → String) (db : DatabaseDescription)
    (question sql : String)
    (hsql : (complete_prompt apiKey transport (question_prompt qq db question)).result
      = .ok sql) :
    give_me_a_query_to apiKey transport qq db question
      = ⟨["You can try this query:\n" ++ sql], [], .ok ()⟩ := by
  unfold give_me_a_query_to
  rw [hsql]

/-- C1: the write-mode entry point passes the completion output to the SPI
`update` primitive exactly as received, and its result is either bare unit
success or the propagated execution error — the payload type `Unit` carries
no result rows. -/
theorem C1_write_mode_verbatim (apiKey : Option String)
    (transport : List ChatCompletionMessage → TransportOutcome)
    (qq : String → String → String) (db : DatabaseDescription)
    (update : String → Except String Unit) (question sql : String)
    (hsql : (complete_prompt apiKey transport (question_prompt qq db question)).result
      = .ok sql) :
    (im_feeling_lucky_dml apiKey transport qq db update question).queriesRun = [sql]
    ∧ ((update sql = .ok () ∧
          (im_feeling_lucky_dml apiKey transport qq db update question).result = .ok ())
        ∨ (∃ e, update sql = .error e ∧
          (im_feeling_lucky_dml apiKey transport qq db update question).result
            = .err (.dbError e))) := by
  rw [im_feeling_lucky_dml_of_ok apiKey transport qq db update question sql hsql]
  unfold im_feeling_lucky_dml_exec
  cases hu : update sql with
  | error e =>
    exact ⟨rfl, Or.inr ⟨e, rfl, rfl⟩⟩
  | ok u =>
    cases u
    exact ⟨rfl, Or.inl ⟨rfl, rfl⟩⟩

/-- Witness for C1: a concrete run in which the completion yields
`DROP TABLE t` and exactly that text reaches the update primitive. -/
theorem C1_write_mode_verbatim_witness :
    (im_feeling_lucky_dml (some "k") (okTransport "DROP TABLE t") qqPlain ⟨[]⟩
      (fun _ => Except.ok ()) "clean up").queriesRun = ["DROP TABLE t"] :=
  (C1_write_mode_verbatim (some "k") (okTransport "DROP TABLE t") qqPlain ⟨[]⟩
    (fun _ => Except.ok ()) "clean up" "DROP TABLE t" rfl).1

/-- C5: with the `pg_human.api_key` setting unset, the completion client
aborts via the `expect` failure before constructing any network request
(the request log stays empty), and all three entry operations surface that
same failure with no SQL executed. -/
theorem C5_missing_credential
    (transport : List ChatCompletionMessage → TransportOutcome)
    (qq : String → String → String) (db : DatabaseDescription)
    (update : String → Except String Unit)
    (select : String → Except String (List Unit))
    (prompt : List ChatCompletionMessage) (question : String) :
    ((complete_prompt none transport prompt).requests = []
      ∧ (complete_prompt none transport prompt).result
          = .panic "pg_human.api_key is not set")
    ∧ (give_me_a_query_to none transport qq db question).result
        = .panic "pg_human.api_key is not set"
    ∧ (im_feeling_lucky none transport qq db select question).result
        = .panic "pg_human.api_key is not set"
    ∧ (im_feeling_lucky none transport qq db select question).queriesRun = []
    ∧ (im_feeling_lucky_dml none transport qq db update question).result
        = .panic "pg_human.api_key is not set"
    ∧ (im_feeling_lucky_dml none transport qq db update question).queriesRun = [] :=
  ⟨⟨rfl, rfl⟩, rfl, rfl, rfl, rfl, rfl⟩

/-- C6: the prompt builder yields exactly three turns in fixed order —
system persona, user schema rendering (expanded form), user question with
the fixed bare-SQL and schema-vocabulary instructions — and the question
text appears verbatim between two fixed literals in the third turn. -/
theorem C6_prompt_three_turns (qq : String → String → String)
    (db : DatabaseDescription) (question : String) :
    question_prompt qq db question =
      [⟨.system, "You are a PostgreSQL expert", none⟩,
       ⟨.user, "My Postgres database schema looks like this:\n" ++
          fmtDatabase qq true db ++ ".", none⟩,
       ⟨.user, "Given that schema, could you give me a PostgreSQL query to do the following action: "
          ++ question ++
          ".\n Only respond with the SQL code, so no other additional text. Only use the tables and columns provided in the schema.",
        none⟩]
    ∧ (question_prompt qq db question).length = 3
    ∧ (question_prompt qq db question).map ChatCompletionMessage.role
        = [.system, .user, .user] :=
  ⟨rfl, rfl, rfl⟩

/-- C10: an empty introspection result yields a description with no tables,
both renderings of it are the empty string, and the second prompt turn is
exactly the fixed introduction, a newline, nothing, and a period — no error,
no special casing. -/
theorem C10_empty_schema (qq : String → String → String)
    (cf : String → String → List String) (question : String) :
    DatabaseDescription.new [] cf = ⟨[]⟩
    ∧ fmtDatabase qq true ⟨[]⟩ = ""
    ∧ fmtDatabase qq false ⟨[]⟩ = ""
    ∧ (question_prompt qq ⟨[]⟩ question)[1]? =
        some ⟨.user, "My Postgres database schema looks like this:\n.", none⟩ := by
  refine ⟨?_, rfl, rfl, ?_⟩
  · unfold DatabaseDescription.new
    simp [groupRuns]
  · rfl

/-- C9: a completion call whose transport does not resolve within the fixed
wait ceiling fails with the timeout error, which is distinct from the
transport/API error; and no invocation ever issues more than one request
(no retries). -/
theorem C9_bounded_wait (k : String)
    (transport : List ChatCompletionMessage → TransportOutcome)
    (prompt : List ChatCompletionMessage)
    (h : (transport prompt).timedOut = true) :
    (complete_prompt (some k) transport prompt).result = .err .completionTimeout
    ∧ (∀ e, (Outcome.err PgError.completionTimeout : Outcome String)
        ≠ .err (.requestFailed e))
    ∧ ∀ apiKey : Option String,
        (complete_prompt apiKey transport prompt).requests.length ≤ 1 := by
  refine ⟨?_, fun e h' => by simp at h', fun apiKey => ?_⟩
  · cases htr : transport prompt with
    | neverResolves => simp [complete_prompt, htr]
    | resolves t r =>
      have ht : timeoutCeilingSecs ≤ t := by
        rw [htr] at h
        exact of_decide_eq_true h
      simp [complete_prompt, htr, ht]
  · cases apiKey <;> simp [complete_prompt]

/-- Witness for C9: a transport that never resolves produces the timeout
error at a concrete input. -/
theorem C9_bounded_wait_witness :
    (complete_prompt (some "k") (fun _ => .neverResolves) []).result
      = .err .completionTimeout :=
  (C9_bounded_wait "k" (fun _ => .neverResolves) [] rfl).1

/-- C4 (counterexample): a completion response with an empty choice list
does not produce an ordinary error result — `response.choices.remove(0)`
panics (index out of bounds), which the claim rules out as a crash/abort. -/
theorem C4_counterexample :
    (complete_prompt (some "k") (fun _ => .resolves 0 (.ok ⟨[]⟩)) []).result
      = .panic "removal index (is 0) should be < len (is 0)"
    ∧ ¬ ∃ e, (complete_prompt (some "k") (fun _ => .resolves 0 (.ok ⟨[]⟩)) []).result
        = Outcome.err e := by
  refine ⟨rfl, ?_⟩
  rintro ⟨e, he⟩
  simp [complete_prompt, timeoutCeilingSecs] at he

/-- C4 (amended): a completion response that resolves in time returns the
first choice's message content verbatim (all later choices discarded); a
response with an empty choice list makes the call panic via the
out-of-bounds `Vec::remove(0)` rather than return an error value. -/
theorem C4_first_choice (k : String)
    (transport : List ChatCompletionMessage → TransportOutcome)
    (prompt : List ChatCompletionMessage) (t : Nat) (response : ChatCompletion)
    (htr : transport prompt = .resolves t (.ok response))
    (ht : t < timeoutCeilingSecs) :
    (∀ c rest, response.choices = c :: rest →
        (complete_prompt (some k) transport prompt).result = .ok c.message.content)
    ∧ (response.choices = [] →
        (complete_prompt (some k) transport prompt).result
          = .panic "removal index (is 0) should be < len (is 0)") := by
  constructor
  · intro c rest hc
    simp [complete_prompt, htr, hc, Nat.not_le.mpr ht]
  · intro hc
    simp [complete_prompt, htr, hc, Nat.not_le.mpr ht]

/-- Witness for C4: with one choice containing `SELECT 42`, exactly that
text is returned. -/
theorem C4_first_choice_witness :
    (complete_prompt (some "k") (okTransport "SELECT 42") []).result
      = .ok "SELECT 42" :=
  (C4_first_choice "k" (okTransport "SELECT 42") [] 0
      ⟨[⟨⟨.assistant, "SELECT 42", none⟩⟩]⟩ rfl (by decide)).1
    ⟨⟨.assistant, "SELECT 42", none⟩⟩ [] rfl

/-- C3 (counterexample): at a concrete input on which the pipeline succeeds,
`give_me_a_query_to` returns bare unit success — not the generated SQL text
as its result value; the SQL reaches the caller only inside the emitted
notice message.  (It does not execute the SQL: the query log is empty.) -/
theorem C3_counterexample :
    (give_me_a_query_to (some "k") (okTransport "SELECT 42") qqPlain ⟨[]⟩
        "the answer").result = .ok ()
    ∧ (give_me_a_query_to (some "k") (okTransport "SELECT 42") qqPlain ⟨[]⟩
        "the answer").notices = ["You can try this query:\nSELECT 42"]
    ∧ (give_me_a_query_to (some "k") (okTransport "SELECT 42") qqPlain ⟨[]⟩
        "the answer").queriesRun = [] :=
  ⟨rfl, rfl, rfl⟩

/-- C3 (amended): on every successful completion, `give_me_a_query_to`
emits the generated SQL inside the one notice message, executes no SQL, and
returns unit success (its Rust return type is `Result<()>`). -/
theorem C3_generate_only (apiKey : Option String)
    (transport : List ChatCompletionMessage → TransportOutcome)
    (qq : String → String → String) (db : DatabaseDescription)
    (question sql : String)
    (hsql : (complete_prompt apiKey transport (question_prompt qq db question)).result
      = .ok sql) :
    (give_me_a_query_to apiKey transport qq db question).notices
        = ["You can try this query:\n" ++ sql]
    ∧ (give_me_a_query_to apiKey transport qq db question).queriesRun = []
    ∧ (give_me_a_query_to apiKey transport qq db question).result = .ok () := by
  rw [give_me_a_query_to_of_ok apiKey transport qq db question sql hsql]
  exact ⟨rfl, rfl, rfl⟩

/-- Witness for the amended C3 at a concrete input. -/
theorem C3_generate_only_witness :
    (give_me_a_query_to (some "k") (okTransport "SELECT 1") qqPlain ⟨[]⟩
        "one").notices = ["You can try this query:\nSELECT 1"] :=
  (C3_generate_only (some "k") (okTransport "SELECT 1") qqPlain ⟨[]⟩
    "one" "SELECT 1" rfl).1

/-- The indexing loop pairs every row with an index and drops none. -/
theorem indexRowsFrom_map_snd {α : Type} (i : Int) (rows : List α) :
    (indexRowsFrom i rows).map Prod.snd = rows := by
  induction rows generalizing i with
  | nil => rfl
  | cons r rs ih => simp [indexRowsFrom, ih]

/-- Wrapping increment agrees with the exact increment below the `i32`
bound. -/
theorem wrapAdd32_one (i : Int) (h0 : 0 ≤ i) (h : i + 1 < 2147483648) :
    wrapAdd32 i 1 = i + 1 := by
  unfold wrapAdd32
  rw [Int.emod_eq_of_lt (by omega) (by omega)]
  omega

/-- Indices produced by the loop are consecutive, starting at `i`, as long
as they stay below the `i32` bound. -/
theorem indexRowsFrom_map_fst {α : Type} (rows : List α) :
    ∀ i : Int, 0 ≤ i → i + rows.length ≤ 2147483648 →
      (indexRowsFrom i rows).map Prod.fst
        = (List.range rows.length).map (fun n : Nat => i + (n : Int)) := by
  induction rows with
  | nil => intro i _ _; rfl
  | cons r rs ih =>
    intro i h0 h
    rcases eq_or_ne rs [] with rfl | hrs
    · simp [indexRowsFrom, List.range_succ]
    · have hlen : 1 ≤ rs.length := List.length_pos.mpr hrs
      have hw : wrapAdd32 i 1 = i + 1 := by
        apply wrapAdd32_one i h0
        simp only [List.length_cons] at h
        omega
      simp only [indexRowsFrom, List.map_cons, List.length_cons,
        List.range_succ_eq_map, List.map_map]
      have htl := ih (i + 1) (by omega)
        (by simp only [List.length_cons] at h; omega)
      rw [hw, htl]
      congr 1
      · simp
      apply List.map_congr_left
      intro a _
      simp only [Function.comp_apply]
      push_cast
      ring

/-- C8: read mode passes exactly the wrapped trimmed query to the SPI
select primitive; an SPI failure is propagated with no rows; on success
there is exactly one output pair per result row, in order, indexed
0, 1, 2, ... (exact as long as the row count stays within `i32`). -/
theorem C8_read_mode {α : Type} (select : String → Except String (List α))
    (sql : String) :
    (im_feeling_lucky_exec select sql).queriesRun
        = [wrapReadQuery (trim_end_matches sql)]
    ∧ (∀ e, select (wrapReadQuery (trim_end_matches sql)) = .error e →
        (im_feeling_lucky_exec select sql).result = .err (.dbError e))
    ∧ ∀ rows, select (wrapReadQuery (trim_end_matches sql)) = .ok rows →
        (im_feeling_lucky_exec select sql).result = .ok (indexRows rows)
        ∧ (indexRows rows).map Prod.snd = rows
        ∧ (rows.length ≤ 2147483648 →
            (indexRows rows).map Prod.fst
              = (List.range rows.length).map (fun n : Nat => (n : Int))) := by
  unfold im_feeling_lucky_exec
  cases hs : select (wrapReadQuery (trim_end_matches sql)) with
  | error e =>
    refine ⟨rfl, fun e' he => ?_, fun rows hr => ?_⟩
    · cases he
      rfl
    · simp at hr
  | ok rows0 =>
    refine ⟨rfl, fun e' he => by simp at he, fun rows hr => ?_⟩
    injection hr with hr
    subst hr
    refine ⟨rfl, indexRowsFrom_map_snd 0 rows0, fun hlen => ?_⟩
    have := indexRowsFrom_map_fst rows0 0 (le_refl 0) (by omega)
    rw [indexRows, this]
    apply List.map_congr_left
    intro a _
    omega

/-- Witness for C8: two rows come back indexed 0 and 1, and the executed
query is the wrapped trimmed text. -/
theorem C8_read_mode_witness :
    (im_feeling_lucky_exec (fun _ => Except.ok ["a", "b"]) "SELECT 1;\n ").queriesRun
      = [wrapReadQuery "SELECT 1"] :=
  (C8_read_mode (fun _ => Except.ok ["a", "b"]) "SELECT 1;\n ").1

/-! ### Grouping-pass lemmas for C7 -/

/-- The runs concatenate back to the original row sequence: the grouping
pass is a partition of the rows. -/
theorem groupRuns_flatten (rows : List IntrospectionRow) :
    (groupRuns rows).flatten = rows := by
  induction rows using groupRuns.induct with
  | case1 => simp [groupRuns]
  | case2 r rs ih =>
    rw [groupRuns]
    simp only [List.flatten_cons, ih, List.cons_append]
    rw [List.takeWhile_append_dropWhile]

/-- Every run is nonempty, and all of its members carry the key of the run
opener. -/
theorem groupRuns_shape (rows : List IntrospectionRow) :
    ∀ run ∈ groupRuns rows,
      ∃ r0 tl, run = r0 :: tl ∧ ∀ x ∈ tl, rowKey x = rowKey r0 := by
  induction rows using groupRuns.induct with
  | case1 => simp [groupRuns]
  | case2 r rs ih =>
    rw [groupRuns]
    intro run hrun
    rcases List.mem_cons.mp hrun with rfl | h
    · refine ⟨r, _, rfl, fun x hx => ?_⟩
      have h := List.mem_takeWhile_imp hx
      exact of_decide_eq_true h
    · exact ih run h

/-- The key order is transitive. -/
theorem keyLe_trans {a b c : String × String} (h1 : keyLe a b) (h2 : keyLe b c) :
    keyLe a c := by
  rcases h1 with h1 | ⟨e1, l1⟩ <;> rcases h2 with h2 | ⟨e2, l2⟩
  · exact Or.inl (lt_trans h1 h2)
  · exact Or.inl (by rw [← e2]; exact h1)
  · exact Or.inl (by rw [e1]; exact h2)
  · exact Or.inr ⟨e1.trans e2, le_trans l1 l2⟩

/-- The key order is antisymmetric. -/
theorem keyLe_antisymm {a b : String × String} (h1 : keyLe a b) (h2 : keyLe b a) :
    a = b := by
  rcases h1 with h1 | ⟨e1, l1⟩ <;> rcases h2 with h2 | ⟨e2, l2⟩
  · exact absurd h2 (lt_asymm h1)
  · exact absurd h1 (by rw [e2]; exact lt_irrefl a.1)
  · exact absurd h2 (by rw [e1]; exact lt_irrefl b.1)
  · exact Prod.ext e1 (le_antisymm l1 l2)

/-- Under the sortedness precondition, no row remaining after the opener's
run is dropped still carries the opener's key — this is exactly where
losing the sort order would split one table into several. -/
theorem dropWhile_key_ne :
    ∀ (rs : List IntrospectionRow) (r : IntrospectionRow),
      rowsSorted (r :: rs) →
      ∀ x ∈ rs.dropWhile (fun x => decide (rowKey x = rowKey r)),
        rowKey x ≠ rowKey r := by
  intro rs
  induction rs with
  | nil => intro r _ x hx; simp at hx
  | cons y ys ih =>
    intro r hs x hx
    rw [List.dropWhile_cons] at hx
    by_cases hy : decide (rowKey y = rowKey r) = true
    · rw [if_pos hy] at hx
      have hs' : rowsSorted (r :: ys) :=
        List.Pairwise.sublist (List.Sublist.cons₂ r (List.sublist_cons_self y ys)) hs
      exact ih r hs' x hx
    · rw [if_neg hy] at hx
      have hyr : rowKey y ≠ rowKey r := fun h => hy (decide_eq_true h)
      rcases List.mem_cons.mp hx with rfl | hxy
      · exact hyr
      · intro hxr
        rcases List.sorted_cons.mp hs with ⟨hr, hrest⟩
        have h1 : keyLe (rowKey r) (rowKey y) := hr y (List.mem_cons_self y ys)
        rcases List.sorted_cons.mp hrest with ⟨hy2, _⟩
        have h2 : keyLe (rowKey y) (rowKey x) := hy2 x hxy
        rw [hxr] at h2
        exact hyr (keyLe_antisymm h2 h1)

/-- Every produced table takes its (schema, name) key from a source row and
its constraint list from the constraint query at exactly that key. -/
theorem new_tables_shape (rows : List IntrospectionRow)
    (cf : String → String → List String) :
    ∀ t ∈ (DatabaseDescription.new rows cf).tables,
      (t.schema, t.name) ∈ rows.map rowKey
      ∧ t.constraints = cf t.schema t.name := by
  intro t ht
  rcases List.mem_map.mp ht with ⟨run, hrun, rfl⟩
  rcases groupRuns_shape rows run hrun with ⟨r0, tl, rfl, hkeys⟩
  refine ⟨?_, rfl⟩
  have hr0 : r0 ∈ rows := by
    rw [← groupRuns_flatten rows]
    exact List.mem_flatten.mpr ⟨_, hrun, List.mem_cons_self _ _⟩
  exact List.mem_map.mpr ⟨r0, hr0, rfl⟩

/-- Table keys appear in source first-appearance order: they form a sublist
of the row keys (no secondary sort is applied). -/
theorem groupRuns_keys_sublist (cf : String → String → List String)
    (rows : List IntrospectionRow) :
    (((groupRuns rows).map (tableOfRun cf)).map
        (fun t => (t.schema, t.name))).Sublist (rows.map rowKey) := by
  induction rows using groupRuns.induct with
  | case1 => simp [groupRuns]
  | case2 r rs ih =>
    rw [groupRuns]
    simp only [List.map_cons]
    refine List.Sublist.cons₂ _ ?_
    exact ih.trans (List.Sublist.map rowKey (List.dropWhile_sublist _))

/-- Every source row's key is represented by some produced table. -/
theorem groupRuns_keys_complete (cf : String → String → List String)
    (rows : List IntrospectionRow) :
    ∀ r ∈ rows, rowKey r ∈
      ((groupRuns rows).map (tableOfRun cf)).map (fun t => (t.schema, t.name)) := by
  intro r hr
  have hrf : r ∈ (groupRuns rows).flatten := by
    rw [groupRuns_flatten]; exact hr
  rcases List.mem_flatten.mp hrf with ⟨run, hrun, hx⟩
  rcases groupRuns_shape rows run hrun with ⟨r0, tl, rfl, hkeys⟩
  have hk : rowKey r = rowKey r0 := by
    rcases List.mem_cons.mp hx with rfl | h
    · rfl
    · exact hkeys r h
  refine List.mem_map.mpr ⟨tableOfRun cf (r0 :: tl), List.mem_map.mpr ⟨_, hrun, rfl⟩, ?_⟩
  rw [hk]
  rfl

/-- Under sortedness, no key yields two tables. -/
theorem groupRuns_keys_nodup (cf : String → String → List String) :
    ∀ rows : List IntrospectionRow, rowsSorted rows →
      (((groupRuns rows).map (tableOfRun cf)).map
          (fun t => (t.schema, t.name))).Nodup := by
  intro rows
  induction rows using groupRuns.induct with
  | case1 => intro _; simp [groupRuns]
  | case2 r rs ih =>
    intro hs
    have hs' : rowsSorted (rs.dropWhile (fun x => decide (rowKey x = rowKey r))) :=
      List.Pairwise.sublist
        ((List.dropWhile_sublist _).trans (List.sublist_cons_self r rs)) hs
    rw [groupRuns]
    simp only [List.map_cons, List.nodup_cons]
    refine ⟨?_, ih hs'⟩
    intro hmem
    rcases List.mem_map.mp hmem with ⟨t, ht, hkey⟩
    obtain ⟨hkmem, _⟩ :=
      new_tables_shape (rs.dropWhile (fun x => decide (rowKey x = rowKey r))) cf t ht
    rcases List.mem_map.mp hkmem with ⟨x, hx, hxkey⟩
    apply dropWhile_key_ne rs r hs x hx
    rw [hxkey, hkey]
    rfl

/-- Under sortedness, every produced table collects exactly the columns of
all source rows carrying its key, in source order. -/
theorem groupRuns_columns (cf : String → String → List String) :
    ∀ rows : List IntrospectionRow, rowsSorted rows →
      ∀ t ∈ (groupRuns rows).map (tableOfRun cf),
        t.columns = (rows.filter (fun x => decide (rowKey x = (t.schema, t.name)))).map
          (fun x => ⟨x.column_name, x.data_type⟩) := by
  intro rows
  induction rows using groupRuns.induct with
  | case1 =>
    intro _ t ht
    simp [groupRuns] at ht
  | case2 r rs ih =>
    intro hs t ht
    have hs' : rowsSorted (rs.dropWhile (fun x => decide (rowKey x = rowKey r))) :=
      List.Pairwise.sublist
        ((List.dropWhile_sublist _).trans (List.sublist_cons_self r rs)) hs
    rw [groupRuns, List.map_cons] at ht
    rcases List.mem_cons.mp ht with rfl | ht'
    · show (r :: rs.takeWhile (fun x => decide (rowKey x = rowKey r))).map
          (fun x => (⟨x.column_name, x.data_type⟩ : ColumnDescription))
        = ((r :: rs).filter (fun x => decide (rowKey x = rowKey r))).map
          (fun x => ⟨x.column_name, x.data_type⟩)
      congr 1
      rw [List.filter_cons, if_pos (by simp)]
      congr 1
      conv_rhs =>
        rw [← List.takeWhile_append_dropWhile
          (fun x => decide (rowKey x = rowKey r)) rs]
      rw [List.filter_append]
      have hself : (rs.takeWhile (fun x => decide (rowKey x = rowKey r))).filter
          (fun x => decide (rowKey x = rowKey r))
          = rs.takeWhile (fun x => decide (rowKey x = rowKey r)) := by
        apply List.filter_eq_self.mpr
        intro a ha
        have h2 := List.mem_takeWhile_imp ha
        exact h2
      rw [hself,
        List.filter_eq_nil_iff.mpr
          (fun a ha hpa => dropWhile_key_ne rs r hs a ha (of_decide_eq_true hpa)),
        List.append_nil]
    · have hcols := ih hs' t ht'
      rw [hcols]
      congr 1
      obtain ⟨hkmem, _⟩ :=
        new_tables_shape (rs.dropWhile (fun x => decide (rowKey x = rowKey r))) cf t ht'
      rcases List.mem_map.mp hkmem with ⟨x0, hx0, hx0key⟩
      have hKne : (t.schema, t.name) ≠ rowKey r := by
        rw [← hx0key]
        exact dropWhile_key_ne rs r hs x0 hx0
      rw [List.filter_cons,
        if_neg (by simp only [decide_eq_true_eq]; exact fun h => hKne h.symm)]
      conv_rhs =>
        rw [← List.takeWhile_append_dropWhile
          (fun x => decide (rowKey x = rowKey r)) rs]
      rw [List.filter_append]
      have htake : (rs.takeWhile (fun x => decide (rowKey x = rowKey r))).filter
          (fun x => decide (rowKey x = (t.schema, t.name))) = [] := by
        apply List.filter_eq_nil_iff.mpr
        intro a ha hpa
        have h1 : rowKey a = (t.schema, t.name) := of_decide_eq_true hpa
        have h2' := List.mem_takeWhile_imp ha
        have h2 : rowKey a = rowKey r := of_decide_eq_true h2'
        rw [h2] at h1
        exact hKne h1.symm
      rw [htake, List.nil_append]

/-- C7: on introspection rows sorted by (schema, table), the single linear
grouping pass produces one table per key — the table keys are duplicate-free,
ordered as in the source (a sublist of the row keys, so no secondary sort),
and every source row is represented; each table's columns are exactly the
columns of the rows carrying its key, in source (ordinal-position) order,
and its constraints come from the constraint query at its key. -/
theorem C7_grouping (rows : List IntrospectionRow)
    (cf : String → String → List String) (hs : rowsSorted rows) :
    ((DatabaseDescription.new rows cf).tables.map
        (fun t => (t.schema, t.name))).Nodup
    ∧ ((DatabaseDescription.new rows cf).tables.map
        (fun t => (t.schema, t.name))).Sublist (rows.map rowKey)
    ∧ (∀ r ∈ rows, rowKey r ∈
        (DatabaseDescription.new rows cf).tables.map (fun t => (t.schema, t.name)))
    ∧ ∀ t ∈ (DatabaseDescription.new rows cf).tables,
        t.columns = (rows.filter (fun x => decide (rowKey x = (t.schema, t.name)))).map
            (fun x => ⟨x.column_name, x.data_type⟩)
        ∧ t.constraints = cf t.schema t.name :=
  ⟨groupRuns_keys_nodup cf rows hs, groupRuns_keys_sublist cf rows,
   fun r hr => groupRuns_keys_complete cf rows r hr,
   fun t ht => ⟨groupRuns_columns cf rows hs t ht,
     (new_tables_shape rows cf t ht).2⟩⟩

/-- The witness rows are sorted: both carry the same key, so only
reflexivity of the key order is needed. -/
theorem sortedRowsW_sorted : rowsSorted sortedRowsW := by
  refine List.Pairwise.cons (fun b hb => ?_) (List.Pairwise.cons (fun b hb => ?_) List.Pairwise.nil)
  · rcases List.mem_singleton.mp hb with rfl
    exact Or.inr ⟨rfl, le_refl _⟩
  · exact absurd hb (List.not_mem_nil b)

/-- Witness for C7 at concrete sorted rows: the produced table keys are
duplicate-free. -/
theorem C7_grouping_witness :
    ((DatabaseDescription.new sortedRowsW (fun _ _ => [])).tables.map
        (fun t => (t.schema, t.name))).Nodup :=
  (C7_grouping sortedRowsW (fun _ _ => []) sortedRowsW_sorted).1

end PgHuman
